import Mathlib

/-!
Shallow embedding of the glTF binary-container parser (`binary.rs`) and the
buffer materializer (`import.rs`) of the `gltf-nostd` crate, together with
theorems settling the specification claims about them.

Bytes are modelled as `Nat` values (< 256 for genuine inputs); byte slices as
`List Nat`.  The `u32`/`usize` machine arithmetic of the source is modelled on
`Nat` with explicit reduction modulo `2^32` / `2^64` at the points where the
source performs a cast or where wrapping can occur.  Fallible operations
return `Except`.
-/

namespace Gltf

/-- `usize` modulus, `2^64`. -/
def USIZE_MOD : Nat := 18446744073709551616

/-- `u32` modulus, `2^32`. -/
def U32_MOD : Nat := 4294967296

/-- GLB chunk type (`ChunkType` in `binary.rs`). -/
inductive ChunkType
  | Json
  | Bin
deriving DecidableEq, Repr

/-- The error enum of `binary.rs` (`binary::Error`). -/
inductive Error
  | Io
  | Version (v : Nat)
  | Magic (m : List Nat)
  | Length (length : Nat) (length_read : Nat)
  | ChunkLength (ty : ChunkType) (length : Nat) (length_read : Nat)
  | ChunkTypeErr (ty : ChunkType)
  | UnknownChunkType (ty : List Nat)
deriving DecidableEq, Repr

/-- The crate-level error wrapper (`crate::Error`), restricted to the variants
used by `binary.rs` and `import.rs`. -/
inductive CrateError
  | Binary (e : Error)
  | MissingBlob
  | BufferLength (buffer : Nat) (expected : Nat) (actual : Nat)
deriving DecidableEq, Repr

/-- The 12-byte GLB header (`Header` in `binary.rs`). -/
structure Header where
  magic : List Nat
  version : Nat
  length : Nat
deriving DecidableEq, Repr

/-- Binary glTF contents (`Glb` in `binary.rs`); the `Cow` byte sections are
modelled as plain byte lists. -/
structure Glb where
  header : Header
  json : List Nat
  bin : Option (List Nat)
deriving DecidableEq, Repr

/-- Chunk header with no data read yet (`ChunkHeader` in `binary.rs`). -/
structure ChunkHeader where
  length : Nat
  ty : ChunkType
deriving DecidableEq, Repr

/-- The magic constant `b"glTF"`. -/
def glTF_MAGIC : List Nat := [0x67, 0x6C, 0x54, 0x46]

/-- The JSON chunk tag `b"JSON"`. -/
def JSON_TAG : List Nat := [0x4A, 0x53, 0x4F, 0x4E]

/-- The BIN chunk tag `b"BIN\0"`. -/
def BIN_TAG : List Nat := [0x42, 0x49, 0x4E, 0x00]

/-- `u8_arr_to_u32` in `binary.rs`:
`arr[0] as u32 | (arr[1] as u32) << 8 | (arr[2] as u32) << 16 | (arr[3] as u32) << 24`.
The 4-byte array is modelled as a list (indexing with default 0). -/
def u8_arr_to_u32 (arr : List Nat) : Nat :=
  arr.getD 0 0 ||| (arr.getD 1 0 <<< 8) ||| (arr.getD 2 0 <<< 16) ||| (arr.getD 3 0 <<< 24)

/-- `Header::from_reader`: reads the three 4-byte fields (failing with `Io` if
fewer than 12 bytes are available), then validates the magic.  Returns the
header together with the unread remainder of the slice (the reader advances
the slice). -/
def Header.from_reader (data : List Nat) : Except Error (Header × List Nat) :=
  if 12 ≤ data.length then
    let magic := data.take 4
    let version := (data.drop 4).take 4
    let length := (data.drop 8).take 4
    if magic = glTF_MAGIC then
      .ok ({ magic := magic, version := u8_arr_to_u32 version,
             length := u8_arr_to_u32 length }, data.drop 12)
    else
      .error (.Magic magic)
  else
    .error .Io

/-- `ChunkHeader::from_reader`: reads a 4-byte length and a 4-byte type tag
(failing with `Io` if fewer than 8 bytes are available), mapping the tag to
`Json`/`Bin` and failing with `UnknownChunkType` on any other tag.  Returns
the chunk header together with the unread remainder. -/
def ChunkHeader.from_reader (data : List Nat) : Except Error (ChunkHeader × List Nat) :=
  if 8 ≤ data.length then
    let length := data.take 4
    let ty := (data.drop 4).take 4
    if ty = JSON_TAG then
      .ok ({ length := u8_arr_to_u32 length, ty := .Json }, data.drop 8)
    else if ty = BIN_TAG then
      .ok ({ length := u8_arr_to_u32 length, ty := .Bin }, data.drop 8)
    else
      .error (.UnknownChunkType ty)
  else
    .error .Io

/-- The second half of `split_binary_gltf`: the
`if !data.is_empty() { ... }` block that reads the optional BIN chunk from
the bytes left after the JSON payload. -/
def readBinChunk (data : List Nat) : Except Error (Option (List Nat)) :=
  if data.isEmpty then
    .ok none
  else
    match ChunkHeader.from_reader data with
    | .error e => .error e
    | .ok (bin_h, rest) =>
      match bin_h.ty with
      | .Json => .error (.ChunkTypeErr .Json)
      | .Bin =>
        if bin_h.length ≤ rest.length then
          .ok (some (rest.take bin_h.length))
        else
          .error (.ChunkLength bin_h.ty bin_h.length rest.length)

/-- `split_binary_gltf`: reads the mandatory JSON chunk (checking its tag and
its declared length against the remaining bytes), slices its payload, then
reads the optional BIN chunk from whatever follows. -/
def split_binary_gltf (data : List Nat) : Except Error (List Nat × Option (List Nat)) :=
  match ChunkHeader.from_reader data with
  | .error e => .error e
  | .ok (json_h, rest) =>
    match json_h.ty with
    | .Bin => .error (.ChunkTypeErr .Bin)
    | .Json =>
      if json_h.length ≤ rest.length then
        match readBinChunk (rest.drop json_h.length) with
        | .error e => .error e
        | .ok bin => .ok (rest.take json_h.length, bin)
      else
        .error (.ChunkLength json_h.ty json_h.length rest.length)

/-- The `usize` computation `header.length as usize - Header::size_of()` in
`Glb::from_slice`, with wrapping (release-mode) semantics: subtraction of 12
modulo `2^64`. -/
def contentsLength (headerLength : Nat) : Nat :=
  (headerLength + (USIZE_MOD - 12)) % USIZE_MOD

/-- `Glb::from_slice`: parse the header, check
`contents_length <= data.len()`, gate on `version == 2`, then split the
chunks.  The `Length` error stores `contents_length as u32`
(truncation modulo `2^32`). -/
def Glb.from_slice (data : List Nat) : Except CrateError Glb :=
  match Header.from_reader data with
  | .error e => .error (.Binary e)
  | .ok (header, rest) =>
    let contents_length := contentsLength header.length
    if contents_length ≤ rest.length then
      if header.version = 2 then
        match split_binary_gltf rest with
        | .ok (json, bin) => .ok { header := header, json := json, bin := bin }
        | .error e => .error (.Binary e)
      else
        .error (.Binary (.Version header.version))
    else
      .error (.Binary (.Length (contents_length % U32_MOD) rest.length))

/-! ## The §6 byte-layout encoder

Used to state the round-trip claim: this definition follows the spec's byte
layout table (§6), not the source (the crate has no write path). -/

/-- Little-endian 4-byte encoding of an unsigned 32-bit value. -/
def u32le (n : Nat) : List Nat :=
  [n % 256, n / 256 % 256, n / 65536 % 256, n / 16777216 % 256]

/-- The encoded bytes of the optional BIN chunk: empty when absent, otherwise
chunk length, `b"BIN\0"` tag, payload. -/
def binChunkBytes : Option (List Nat) → List Nat
  | none => []
  | some b => u32le b.length ++ BIN_TAG ++ b

/-- Declared total length of an encoded container: 12-byte header + 8-byte
JSON chunk preamble + JSON payload + optional BIN chunk bytes. -/
def glbTotalLength (json : List Nat) (bin : Option (List Nat)) : Nat :=
  20 + json.length + (binChunkBytes bin).length

/-- Encoding of a (header, json, optional bin) triple per the §6 layout, with
magic `b"glTF"`, version 2 and consistent total length. -/
def encodeGlb (json : List Nat) (bin : Option (List Nat)) : List Nat :=
  glTF_MAGIC ++ u32le 2 ++ u32le (glbTotalLength json bin) ++
    u32le json.length ++ JSON_TAG ++ json ++ binChunkBytes bin

/-! ## `import.rs`: buffer materialization -/

/-- Modelled from the spec: the source of a buffer descriptor.  The
`Document`/`Buffer` accessors live outside the two core source files; per
§4.4 a descriptor either designates the embedded BIN payload or an external
reference. -/
inductive BufferSource
  | Bin
  | Uri
deriving DecidableEq, Repr

/-- Modelled from the spec: a buffer descriptor of the document, carrying "a
declared byte length and an index" (§6) and a declared source.  The
`Document`/`Buffer` accessor code is not among the core source files. -/
structure Buffer where
  length : Nat
  index : Nat
  source : BufferSource
deriving DecidableEq, Repr

/-- Modelled from the spec: a parsed document exposing "an ordered sequence
of buffer descriptors" (§6) via `document.buffers()`. -/
structure Document where
  buffers : List Buffer
deriving DecidableEq, Repr

/-- The padding loop of `buffer::Data::from_blob`:
`while data.len() % 4 != 0 { data.push(0); }`, translated by its effect of
appending zero bytes until the length is a multiple of 4 (the fixpoint
equation `pad4_fix` below recovers the loop shape). -/
def pad4 (data : List Nat) : List Nat :=
  data ++ List.replicate ((4 - data.length % 4) % 4) 0

/-- `buffer::Data::from_blob(blob: &mut Option<Vec<u8>>)`: `blob.take()`
empties the slot; an empty slot fails with `MissingBlob`, otherwise the taken
bytes are zero-padded to a multiple of 4.  The mutable slot is modelled by
returning its new state (always `none` after `take`). -/
def Data.from_blob (blob : Option (List Nat)) :
    Except CrateError (List Nat) × Option (List Nat) :=
  match blob with
  | none => (.error .MissingBlob, none)
  | some data => (.ok (pad4 data), none)

/-- The `for buffer in document.buffers()` loop body of `import_buffers`,
with the mutable `blob` slot and the accumulated `buffers` vector passed
explicitly. -/
def importBuffersLoop (bufs : List Buffer) (blob : Option (List Nat))
    (acc : List (List Nat)) : Except CrateError (List (List Nat)) :=
  match bufs with
  | [] => .ok acc
  | buffer :: rest =>
    match Data.from_blob blob with
    | (.error e, _) => .error e
    | (.ok data, blob1) =>
      if data.length < buffer.length then
        .error (.BufferLength buffer.index buffer.length data.length)
      else
        importBuffersLoop rest blob1 (acc ++ [data])

/-- `import_buffers`: materialize every declared buffer of the document from
the single embedded blob slot, in declaration order. -/
def import_buffers (document : Document) (blob : Option (List Nat)) :
    Except CrateError (List (List Nat)) :=
  importBuffersLoop document.buffers blob []

/-! ## Helper lemmas -/

theorem lor_shiftLeft_eq_add {a : Nat} (b k : Nat) (h : a < 2 ^ k) :
    a ||| (b <<< k) = a + b * 2 ^ k := by
  rw [Nat.shiftLeft_eq, Nat.lor_comm, Nat.mul_comm b (2 ^ k),
    ← Nat.mul_add_lt_is_or h, Nat.add_comm]

theorem getD_lt_256 {l : List Nat} (h : ∀ x ∈ l, x < 256) (i : Nat) :
    l.getD i 0 < 256 := by
  rcases hx : l[i]? with _ | b
  · simp [List.getD_eq_getElem?_getD, hx]
  · have hb : b ∈ l := List.getElem?_mem hx
    simp only [List.getD_eq_getElem?_getD, hx, Option.getD_some]
    exact h b hb

theorem u8_arr_to_u32_getD {l : List Nat} (h : ∀ x ∈ l, x < 256) :
    u8_arr_to_u32 l =
      l.getD 0 0 + 256 * l.getD 1 0 + 65536 * l.getD 2 0 +
        16777216 * l.getD 3 0 := by
  have h0 := getD_lt_256 h 0
  have h1 := getD_lt_256 h 1
  have h2 := getD_lt_256 h 2
  have e1 : l.getD 0 0 ||| (l.getD 1 0 <<< 8) =
      l.getD 0 0 + l.getD 1 0 * 256 := by
    rw [lor_shiftLeft_eq_add _ 8 (by omega)]
    norm_num
  have e2 : l.getD 0 0 + l.getD 1 0 * 256 ||| (l.getD 2 0 <<< 16) =
      l.getD 0 0 + l.getD 1 0 * 256 + l.getD 2 0 * 65536 := by
    rw [lor_shiftLeft_eq_add _ 16 (by omega)]
    norm_num
  have e3 : l.getD 0 0 + l.getD 1 0 * 256 + l.getD 2 0 * 65536 |||
        (l.getD 3 0 <<< 24) =
      l.getD 0 0 + l.getD 1 0 * 256 + l.getD 2 0 * 65536 +
        l.getD 3 0 * 16777216 := by
    rw [lor_shiftLeft_eq_add _ 24 (by omega)]
    norm_num
  unfold u8_arr_to_u32
  rw [e1, e2, e3]
  ring

theorem u8_arr_to_u32_lt {l : List Nat} (h : ∀ x ∈ l, x < 256) :
    u8_arr_to_u32 l < U32_MOD := by
  rw [u8_arr_to_u32_getD h]
  have h0 := getD_lt_256 h 0
  have h1 := getD_lt_256 h 1
  have h2 := getD_lt_256 h 2
  have h3 := getD_lt_256 h 3
  unfold U32_MOD
  omega

theorem u32le_decode (n : Nat) : u8_arr_to_u32 (u32le n) = n % U32_MOD := by
  have hmem : ∀ x ∈ u32le n, x < 256 := by
    unfold u32le
    intro x hx
    simp only [List.mem_cons, List.not_mem_nil, or_false] at hx
    rcases hx with h | h | h | h <;> omega
  rw [u8_arr_to_u32_getD hmem]
  unfold u32le U32_MOD
  simp only [List.getD_cons_zero, List.getD_cons_succ]
  omega

theorem u32le_length (n : Nat) : (u32le n).length = 4 := rfl

theorem pad4_length_mod (d : List Nat) : (pad4 d).length % 4 = 0 := by
  unfold pad4
  simp only [List.length_append, List.length_replicate]
  omega

theorem pad4_length_ge (d : List Nat) : d.length ≤ (pad4 d).length := by
  unfold pad4
  simp

/-- The closed form `pad4` satisfies the fixpoint equation of the source's
`while data.len() % 4 != 0 { data.push(0) }` loop. -/
theorem pad4_fix (d : List Nat) :
    pad4 d = if d.length % 4 = 0 then d else pad4 (d ++ [0]) := by
  by_cases h : d.length % 4 = 0
  · simp [pad4, h]
  · simp only [if_neg h]
    unfold pad4
    rw [List.append_assoc]
    congr 1
    have hlen : (d ++ [0]).length = d.length + 1 := by simp
    rw [hlen]
    have hr : d.length % 4 = 1 ∨ d.length % 4 = 2 ∨ d.length % 4 = 3 := by omega
    have hstep : (4 - d.length % 4) % 4 = 1 + (4 - (d.length + 1) % 4) % 4 := by
      omega
    rw [hstep, Nat.add_comm 1, List.replicate_add]
    simp only [List.replicate_one]
    rw [← List.replicate_succ', List.replicate_succ]
    rfl

theorem header_from_reader_ok {data : List Nat} (h12 : 12 ≤ data.length)
    (hm : data.take 4 = glTF_MAGIC) :
    Header.from_reader data =
      .ok ({ magic := glTF_MAGIC,
             version := u8_arr_to_u32 ((data.drop 4).take 4),
             length := u8_arr_to_u32 ((data.drop 8).take 4) }, data.drop 12) := by
  simp [Header.from_reader, h12, hm]

theorem chunk_from_reader_json {data : List Nat} (h8 : 8 ≤ data.length)
    (ht : (data.drop 4).take 4 = JSON_TAG) :
    ChunkHeader.from_reader data =
      .ok ({ length := u8_arr_to_u32 (data.take 4), ty := .Json },
        data.drop 8) := by
  simp [ChunkHeader.from_reader, h8, ht]

theorem chunk_from_reader_bin {data : List Nat} (h8 : 8 ≤ data.length)
    (ht : (data.drop 4).take 4 = BIN_TAG) :
    ChunkHeader.from_reader data =
      .ok ({ length := u8_arr_to_u32 (data.take 4), ty := .Bin },
        data.drop 8) := by
  simp [ChunkHeader.from_reader, h8, ht, JSON_TAG, BIN_TAG]

/-! ## Claim C2 (magic rejection) -/

/-- C2 counterexample: the input `[0,0,0,0]` has 4 bytes, all differing from
`b"glTF"`, yet `Glb::from_slice` fails with the `Io` error (from the
truncated header read), not with the magic-mismatch error the claim
requires for every such input. -/
theorem c2_magic_counterexample :
    Glb.from_slice [0, 0, 0, 0] = .error (.Binary .Io) ∧
      Error.Io ≠ Error.Magic [0, 0, 0, 0] := by
  exact ⟨rfl, by decide⟩

/-- C2 (amended): for every input of at least 12 bytes whose first 4 bytes
differ from `b"glTF"`, `Glb::from_slice` fails with the magic-mismatch error
carrying the actual 4 bytes, regardless of the contents of the rest of the
buffer; inputs shorter than 12 bytes fail with the `Io` error instead. -/
theorem c2_magic_rejection (data : List Nat) (h12 : 12 ≤ data.length)
    (hm : data.take 4 ≠ glTF_MAGIC) :
    Glb.from_slice data = .error (.Binary (.Magic (data.take 4))) := by
  simp [Glb.from_slice, Header.from_reader, h12, hm]

theorem c2_magic_rejection_witness :
    12 ≤ ([9, 9, 9, 9, 2, 0, 0, 0, 12, 0, 0, 0] : List Nat).length ∧
      ([9, 9, 9, 9, 2, 0, 0, 0, 12, 0, 0, 0] : List Nat).take 4 ≠ glTF_MAGIC ∧
      Glb.from_slice [9, 9, 9, 9, 2, 0, 0, 0, 12, 0, 0, 0] =
        .error (.Binary (.Magic [9, 9, 9, 9])) :=
  ⟨by decide, by decide,
    c2_magic_rejection [9, 9, 9, 9, 2, 0, 0, 0, 12, 0, 0, 0] (by decide)
      (by decide)⟩

/-! ## Claim C3 (version gate) -/

/-- C3 counterexample: the 12-byte input with magic `b"glTF"`, version 1 and
declared total length 100 fails the total-length check first, producing the
`Length` error, not the `UnsupportedVersion` error the claim requires for
every valid-magic input with version ≠ 2. -/
theorem c3_version_gate_counterexample :
    Glb.from_slice (glTF_MAGIC ++ [1, 0, 0, 0] ++ [100, 0, 0, 0]) =
        .error (.Binary (.Length 88 0)) ∧
      Error.Length 88 0 ≠ Error.Version 1 := by
  exact ⟨rfl, by decide⟩

/-- C3 (amended): for every input of at least 12 bytes whose first 4 bytes
are `b"glTF"`, whose total-length check passes, and whose version field
(little-endian u32 at bytes 4..8) is not 2, `Glb::from_slice` fails with the
unsupported-version error carrying that version value, before any chunk is
parsed; when the total-length check fails, the `Length` error takes
precedence. -/
theorem c3_version_gate (data : List Nat) (h12 : 12 ≤ data.length)
    (hm : data.take 4 = glTF_MAGIC)
    (hlen : contentsLength (u8_arr_to_u32 ((data.drop 8).take 4)) ≤
      data.length - 12)
    (hv : u8_arr_to_u32 ((data.drop 4).take 4) ≠ 2) :
    Glb.from_slice data =
      .error (.Binary (.Version (u8_arr_to_u32 ((data.drop 4).take 4)))) := by
  simp only [Glb.from_slice, header_from_reader_ok h12 hm, List.length_drop]
  simp [hlen, hv]

theorem c3_version_gate_witness :
    Glb.from_slice (glTF_MAGIC ++ [1, 0, 0, 0] ++ [12, 0, 0, 0]) =
      .error (.Binary (.Version 1)) :=
  c3_version_gate (glTF_MAGIC ++ [1, 0, 0, 0] ++ [12, 0, 0, 0]) (by decide)
    (by decide) (by decide) (by decide)

/-! ## Claim C4 (total-length check) -/

/-- C4 counterexample: for the 12-byte input declaring total length 100 with
0 bytes available after the header, the `Length` error reports 88 (the
declared total minus the 12-byte header, as stored by the code), not the
declared count 100 the claim requires. -/
theorem c4_total_length_counterexample :
    Glb.from_slice (glTF_MAGIC ++ [2, 0, 0, 0] ++ [100, 0, 0, 0]) =
        .error (.Binary (.Length 88 0)) ∧
      Error.Length 88 0 ≠ Error.Length 100 0 := by
  exact ⟨rfl, by decide⟩

/-- C4 (amended): for every byte-valued input whose 12-byte header parses
with valid magic, whose declared total length is at least 12, and whose
declared total length minus 12 exceeds the bytes available after the header,
`Glb::from_slice` fails with the total-length error reporting the declared
content length (the declared total minus 12) and the actual count of
available bytes, and no chunk is parsed. -/
theorem c4_total_length (data : List Nat) (h12 : 12 ≤ data.length)
    (hm : data.take 4 = glTF_MAGIC) (hb : ∀ x ∈ data, x < 256)
    (hge : 12 ≤ u8_arr_to_u32 ((data.drop 8).take 4))
    (hgt : data.length - 12 < u8_arr_to_u32 ((data.drop 8).take 4) - 12) :
    Glb.from_slice data =
      .error (.Binary (.Length (u8_arr_to_u32 ((data.drop 8).take 4) - 12)
        (data.length - 12))) := by
  have hb' : ∀ x ∈ (data.drop 8).take 4, x < 256 := fun x hx =>
    hb x (List.drop_subset 8 data (List.take_subset 4 (data.drop 8) hx))
  have hL32 : u8_arr_to_u32 ((data.drop 8).take 4) < U32_MOD :=
    u8_arr_to_u32_lt hb'
  have hcl : contentsLength (u8_arr_to_u32 ((data.drop 8).take 4)) =
      u8_arr_to_u32 ((data.drop 8).take 4) - 12 := by
    unfold contentsLength USIZE_MOD
    unfold U32_MOD at hL32
    omega
  have hnot : ¬(u8_arr_to_u32 ((data.drop 8).take 4) - 12 ≤
      data.length - 12) := by omega
  have hmod : (u8_arr_to_u32 ((data.drop 8).take 4) - 12) % U32_MOD =
      u8_arr_to_u32 ((data.drop 8).take 4) - 12 := by
    unfold U32_MOD at *
    omega
  simp only [Glb.from_slice, header_from_reader_ok h12 hm, List.length_drop,
    hcl]
  simp [hnot, hmod]

theorem c4_total_length_witness :
    Glb.from_slice (glTF_MAGIC ++ [2, 0, 0, 0] ++ [100, 0, 0, 0]) =
      .error (.Binary (.Length 88 0)) :=
  c4_total_length (glTF_MAGIC ++ [2, 0, 0, 0] ++ [100, 0, 0, 0]) (by decide)
    (by decide) (by decide) (by decide) (by decide)

/-! ## Claim C5 (header length arithmetic) -/

/-- C5 counterexample: on the 12-byte input with valid magic and declared
total length 0, the header parses with `length = 0 < 12`, so the `usize`
computation `header.length - 12` underflows: under wrapping semantics it
produces `2^64 - 12`, and the returned error reports its `u32` truncation
`4294967284 = 2^32 - 12` rather than any non-wrapped value (in a
checked/debug build the same subtraction panics). -/
theorem c5_underflow_counterexample :
    Header.from_reader (glTF_MAGIC ++ [2, 0, 0, 0] ++ [0, 0, 0, 0]) =
        .ok ({ magic := glTF_MAGIC, version := 2, length := 0 }, []) ∧
      (0 : Nat) < 12 ∧
      contentsLength 0 = USIZE_MOD - 12 ∧
      Glb.from_slice (glTF_MAGIC ++ [2, 0, 0, 0] ++ [0, 0, 0, 0]) =
        .error (.Binary (.Length 4294967284 0)) := by
  exact ⟨rfl, by decide, by decide, rfl⟩

/-- C5 (amended): for every input with valid magic whose declared
total-length field is less than 12, the content-length computation
`header.length - 12` underflows and wraps modulo `2^64` (in a checked build
it panics); under the wrapping semantics `Glb::from_slice` still returns an
error result value — the `Length` error carrying the wrapped value truncated
to u32 — for every input slice (whose length, as for any Rust slice, is
below `2^63`). -/
theorem c5_wrapping (data : List Nat) (h12 : 12 ≤ data.length)
    (hm : data.take 4 = glTF_MAGIC) (hsz : data.length < 2 ^ 63)
    (hlt : u8_arr_to_u32 ((data.drop 8).take 4) < 12) :
    Glb.from_slice data =
      .error (.Binary (.Length
        (U32_MOD - (12 - u8_arr_to_u32 ((data.drop 8).take 4)))
        (data.length - 12))) := by
  have hcl : contentsLength (u8_arr_to_u32 ((data.drop 8).take 4)) =
      USIZE_MOD - (12 - u8_arr_to_u32 ((data.drop 8).take 4)) := by
    unfold contentsLength USIZE_MOD
    omega
  have hnot : ¬(USIZE_MOD - (12 - u8_arr_to_u32 ((data.drop 8).take 4)) ≤
      data.length - 12) := by
    unfold USIZE_MOD
    have : (2:Nat) ^ 63 = 9223372036854775808 := by norm_num
    omega
  have hmod : (USIZE_MOD - (12 - u8_arr_to_u32 ((data.drop 8).take 4))) %
      U32_MOD = U32_MOD - (12 - u8_arr_to_u32 ((data.drop 8).take 4)) := by
    unfold USIZE_MOD U32_MOD
    omega
  simp only [Glb.from_slice, header_from_reader_ok h12 hm, List.length_drop,
    hcl]
  simp [hnot, hmod]

theorem c5_wrapping_witness :
    Glb.from_slice (glTF_MAGIC ++ [2, 0, 0, 0] ++ [0, 0, 0, 0]) =
      .error (.Binary (.Length 4294967284 0)) :=
  c5_wrapping (glTF_MAGIC ++ [2, 0, 0, 0] ++ [0, 0, 0, 0]) (by decide)
    (by decide) (by decide) (by decide)

/-! ## Claim C6 (chunk bounds check) -/

/-- C6: whenever a chunk preamble parses but its declared payload length
exceeds the bytes remaining after the 8-byte preamble — for the first (JSON)
chunk, or for the second (BIN) chunk after the JSON payload is consumed —
the parse fails with the chunk-length error carrying the chunk kind, the
declared length and the actual remaining byte count; and when the declared
length fits, exactly that many bytes are sliced as the payload and the
cursor advances past them. -/
theorem c6_chunk_bounds :
    (∀ data json_h rest, ChunkHeader.from_reader data = .ok (json_h, rest) →
      json_h.ty = ChunkType.Json → rest.length < json_h.length →
      split_binary_gltf data =
        .error (.ChunkLength .Json json_h.length rest.length)) ∧
    (∀ data json_h rest, ChunkHeader.from_reader data = .ok (json_h, rest) →
      json_h.ty = ChunkType.Json → json_h.length ≤ rest.length →
      split_binary_gltf data =
        Except.map (fun bin => (rest.take json_h.length, bin))
          (readBinChunk (rest.drop json_h.length))) ∧
    (∀ data bin_h rest, data ≠ [] →
      ChunkHeader.from_reader data = .ok (bin_h, rest) →
      bin_h.ty = ChunkType.Bin → rest.length < bin_h.length →
      readBinChunk data =
        .error (.ChunkLength .Bin bin_h.length rest.length)) ∧
    (∀ data bin_h rest, data ≠ [] →
      ChunkHeader.from_reader data = .ok (bin_h, rest) →
      bin_h.ty = ChunkType.Bin → bin_h.length ≤ rest.length →
      readBinChunk data = .ok (some (rest.take bin_h.length))) := by
  refine ⟨?_, ?_, ?_, ?_⟩
  · intro data json_h rest hch hty hlt
    obtain ⟨L, ty⟩ := json_h
    cases hty
    dsimp only at hlt
    have hn : ¬(L ≤ rest.length) := by omega
    simp [split_binary_gltf, hch, hn]
  · intro data json_h rest hch hty hle
    obtain ⟨L, ty⟩ := json_h
    cases hty
    dsimp only at hle ⊢
    rcases h2 : readBinChunk (rest.drop L) with e | bin <;>
      simp [split_binary_gltf, hch, hle, h2, Except.map]
  · intro data bin_h rest hne hch hty hlt
    obtain ⟨L, ty⟩ := bin_h
    cases hty
    dsimp only at hlt
    have hn : ¬(L ≤ rest.length) := by omega
    simp [readBinChunk, hne, hch, hn]
  · intro data bin_h rest hne hch hty hle
    obtain ⟨L, ty⟩ := bin_h
    cases hty
    dsimp only at hle ⊢
    simp [readBinChunk, hne, hch, hle]

theorem c6_chunk_bounds_witness :
    split_binary_gltf ([100, 0, 0, 0] ++ JSON_TAG ++ [1, 2, 3, 4, 5, 6, 7, 8])
        = .error (.ChunkLength .Json 100 8) ∧
      readBinChunk ([5, 0, 0, 0] ++ BIN_TAG) =
        .error (.ChunkLength .Bin 5 0) ∧
      split_binary_gltf ([2, 0, 0, 0] ++ JSON_TAG ++ [7, 8]) =
        Except.map (fun bin => ([7, 8], bin)) (readBinChunk []) ∧
      readBinChunk ([2, 0, 0, 0] ++ BIN_TAG ++ [7, 8]) = .ok (some [7, 8]) :=
  ⟨c6_chunk_bounds.1 _ { length := 100, ty := .Json } [1, 2, 3, 4, 5, 6, 7, 8]
      (by rfl) rfl (by decide),
    c6_chunk_bounds.2.2.1 _ { length := 5, ty := .Bin } [] (by decide)
      (by rfl) rfl (by decide),
    c6_chunk_bounds.2.1 _ { length := 2, ty := .Json } [7, 8] (by rfl) rfl
      (by decide),
    c6_chunk_bounds.2.2.2 _ { length := 2, ty := .Bin } [7, 8] (by decide)
      (by rfl) rfl (by decide)⟩

/-! ## Claim C7 (chunk tag validation and ordering) -/

/-- C7: a chunk preamble whose 4-byte tag is neither `b"JSON"` nor
`b"BIN\0"` fails with the unknown-chunk-type error carrying the actual tag
bytes (and the splitter propagates that error, in either chunk position); a
recognized tag in the wrong position — BIN as the first chunk, or JSON as
the second chunk — fails with the unexpected-chunk-type error carrying the
actual kind. -/
theorem c7_chunk_tags :
    (∀ data, 8 ≤ data.length → (data.drop 4).take 4 ≠ JSON_TAG →
      (data.drop 4).take 4 ≠ BIN_TAG →
      ChunkHeader.from_reader data =
        .error (.UnknownChunkType ((data.drop 4).take 4))) ∧
    (∀ data e, ChunkHeader.from_reader data = .error e →
      split_binary_gltf data = .error e) ∧
    (∀ data e, data ≠ [] → ChunkHeader.from_reader data = .error e →
      readBinChunk data = .error e) ∧
    (∀ data ch rest, ChunkHeader.from_reader data = .ok (ch, rest) →
      ch.ty = ChunkType.Bin →
      split_binary_gltf data = .error (.ChunkTypeErr .Bin)) ∧
    (∀ data ch rest, data ≠ [] →
      ChunkHeader.from_reader data = .ok (ch, rest) →
      ch.ty = ChunkType.Json →
      readBinChunk data = .error (.ChunkTypeErr .Json)) := by
  refine ⟨?_, ?_, ?_, ?_, ?_⟩
  · intro data h8 ht1 ht2
    simp [ChunkHeader.from_reader, h8, ht1, ht2]
  · intro data e hch
    simp [split_binary_gltf, hch]
  · intro data e hne hch
    simp [readBinChunk, hne, hch]
  · intro data ch rest hch hty
    obtain ⟨L, ty⟩ := ch
    cases hty
    simp [split_binary_gltf, hch]
  · intro data ch rest hne hch hty
    obtain ⟨L, ty⟩ := ch
    cases hty
    simp [readBinChunk, hne, hch]

theorem c7_chunk_tags_witness :
    ChunkHeader.from_reader ([4, 0, 0, 0] ++ [1, 2, 3, 4] ++ [0, 0, 0, 0]) =
        .error (.UnknownChunkType [1, 2, 3, 4]) ∧
      split_binary_gltf ([4, 0, 0, 0] ++ [1, 2, 3, 4] ++ [0, 0, 0, 0]) =
        .error (.UnknownChunkType [1, 2, 3, 4]) ∧
      readBinChunk ([4, 0, 0, 0] ++ [1, 2, 3, 4] ++ [0, 0, 0, 0]) =
        .error (.UnknownChunkType [1, 2, 3, 4]) ∧
      split_binary_gltf ([0, 0, 0, 0] ++ BIN_TAG) =
        .error (.ChunkTypeErr .Bin) ∧
      readBinChunk ([0, 0, 0, 0] ++ JSON_TAG) =
        .error (.ChunkTypeErr .Json) :=
  ⟨c7_chunk_tags.1 _ (by decide) (by decide) (by decide),
    c7_chunk_tags.2.1 _ (.UnknownChunkType [1, 2, 3, 4]) (by rfl),
    c7_chunk_tags.2.2.1 _ (.UnknownChunkType [1, 2, 3, 4]) (by decide)
      (by rfl),
    c7_chunk_tags.2.2.2.1 _ { length := 0, ty := .Bin } [] (by rfl) rfl,
    c7_chunk_tags.2.2.2.2 _ { length := 0, ty := .Json } [] (by decide)
      (by rfl) rfl⟩

/-! ## Claim C8 (realized-buffer invariant) -/

/-- C8: every buffer in the sequence returned by a successful
`import_buffers` call has length that is a multiple of 4 and at least its
descriptor's declared length, and its content equals the taken embedded
payload followed only by appended zero bytes — padding never truncates or
alters the payload bytes. -/
theorem c8_realized_buffer_invariant (document : Document)
    (blob : Option (List Nat)) (out : List (List Nat))
    (h : import_buffers document blob = .ok out) :
    out.length = document.buffers.length ∧
    ∀ i (hi : i < out.length) (hj : i < document.buffers.length),
      (out.get ⟨i, hi⟩).length % 4 = 0 ∧
      (document.buffers.get ⟨i, hj⟩).length ≤ (out.get ⟨i, hi⟩).length ∧
      ∃ payload k, blob = some payload ∧
        out.get ⟨i, hi⟩ = payload ++ List.replicate k 0 := by
  obtain ⟨bufs⟩ := document
  dsimp only [import_buffers] at h
  cases bufs with
  | nil =>
    simp only [importBuffersLoop] at h
    injection h with h
    subst h
    refine ⟨rfl, ?_⟩
    intro i hi hj
    simp at hi
  | cons b rest =>
    cases blob with
    | none => simp [importBuffersLoop, Data.from_blob] at h
    | some p =>
      simp only [importBuffersLoop, Data.from_blob] at h
      by_cases hlt : (pad4 p).length < b.length
      · simp [hlt] at h
      · rw [if_neg hlt] at h
        cases rest with
        | cons c rest2 => simp [importBuffersLoop, Data.from_blob] at h
        | nil =>
          simp only [importBuffersLoop, List.nil_append] at h
          injection h with h
          subst h
          refine ⟨rfl, ?_⟩
          intro i hi hj
          have hi0 : i = 0 := by
            simp only [List.length_singleton] at hi
            omega
          subst hi0
          refine ⟨pad4_length_mod p, ?_, p, (4 - p.length % 4) % 4, rfl, rfl⟩
          simpa using Nat.le_of_not_lt hlt

theorem c8_realized_buffer_invariant_witness :
    import_buffers
        { buffers := [{ length := 6, index := 0, source := .Bin }] }
        (some [1, 2, 3, 4, 5, 6]) = .ok [[1, 2, 3, 4, 5, 6, 0, 0]] ∧
      ([[1, 2, 3, 4, 5, 6, 0, 0]] : List (List Nat)).length =
        ({ buffers := [{ length := 6, index := 0, source := .Bin }] } :
          Document).buffers.length ∧
      (([[1, 2, 3, 4, 5, 6, 0, 0]] : List (List Nat)).get
        ⟨0, by decide⟩).length % 4 = 0 :=
  ⟨by rfl,
    (c8_realized_buffer_invariant
      { buffers := [{ length := 6, index := 0, source := .Bin }] }
      (some [1, 2, 3, 4, 5, 6]) [[1, 2, 3, 4, 5, 6, 0, 0]] (by rfl)).1,
    ((c8_realized_buffer_invariant
      { buffers := [{ length := 6, index := 0, source := .Bin }] }
      (some [1, 2, 3, 4, 5, 6]) [[1, 2, 3, 4, 5, 6, 0, 0]] (by rfl)).2 0
      (by decide) (by decide)).1⟩

/-! ## Claim C9 (single consumption of the embedded payload) -/

/-- C9 counterexample: with two descriptors both designating the embedded
payload, the first descriptor declaring length 100 against an empty payload,
`import_buffers` fails on the FIRST descriptor with the `BufferLength`
error, not on the second with the missing-embedded-buffer error as the
claim requires of every such document. -/
theorem c9_single_consumption_counterexample :
    import_buffers
        { buffers := [{ length := 100, index := 0, source := .Bin },
                      { length := 0, index := 1, source := .Bin }] }
        (some []) = .error (.BufferLength 0 100 0) ∧
      CrateError.BufferLength 0 100 0 ≠ CrateError.MissingBlob := by
  exact ⟨rfl, by decide⟩

/-- C9 (amended): `blob.take()` empties the embedded slot on first use — the
first descriptor receives the whole padded payload and every later
`from_blob` call fails with `MissingBlob`; consequently, for every document
with two or more descriptors whose first descriptor's declared length does
not exceed the padded payload length, `import_buffers` fails on the second
descriptor with the missing-embedded-buffer (`MissingBlob`) error. -/
theorem c9_single_consumption (p : List Nat) (d0 d1 : Buffer)
    (rest : List Buffer) (h : d0.length ≤ (pad4 p).length) :
    Data.from_blob (some p) = (.ok (pad4 p), none) ∧
    Data.from_blob (none : Option (List Nat)) = (.error .MissingBlob, none) ∧
    import_buffers { buffers := d0 :: d1 :: rest } (some p) =
      .error .MissingBlob := by
  refine ⟨rfl, rfl, ?_⟩
  have hnlt : ¬((pad4 p).length < d0.length) := by omega
  simp [import_buffers, importBuffersLoop, Data.from_blob, hnlt]

theorem c9_single_consumption_witness :
    ({ length := 0, index := 0, source := .Bin } : Buffer).length ≤
        (pad4 [1]).length ∧
      import_buffers
        { buffers := [{ length := 0, index := 0, source := .Bin },
                      { length := 0, index := 1, source := .Bin }] }
        (some [1]) = .error .MissingBlob :=
  ⟨by decide,
    (c9_single_consumption [1] { length := 0, index := 0, source := .Bin }
      { length := 0, index := 1, source := .Bin } [] (by decide)).2.2⟩

/-! ## Claim C10 (every descriptor is sourced from the embedded slot) -/

/-- C10: `import_buffers` fills each buffer descriptor, in declaration
order, from the single embedded blob slot regardless of the source the
descriptor declares: for every document declaring at least one buffer, a
call with `blob = none` fails with the missing-blob error and returns no
buffers, and for a document declaring zero buffers the call succeeds with
the empty sequence for any blob. -/
theorem c10_blob_sourcing :
    (∀ document : Document, 1 ≤ document.buffers.length →
      import_buffers document none = .error .MissingBlob) ∧
    (∀ (document : Document) (blob : Option (List Nat)),
      document.buffers = [] → import_buffers document blob = .ok []) := by
  constructor
  · intro document h1
    obtain ⟨bufs⟩ := document
    cases bufs with
    | nil => simp at h1
    | cons b rest => simp [import_buffers, importBuffersLoop, Data.from_blob]
  · intro document blob hb
    simp [import_buffers, hb, importBuffersLoop]

theorem c10_blob_sourcing_witness :
    import_buffers
        { buffers := [{ length := 3, index := 0, source := .Uri }] } none =
        .error .MissingBlob ∧
      import_buffers { buffers := [] } (some [7]) = .ok [] :=
  ⟨c10_blob_sourcing.1
      { buffers := [{ length := 3, index := 0, source := .Uri }] }
      (by decide),
    c10_blob_sourcing.2 { buffers := [] } (some [7]) rfl⟩

/-! ## Claim C1 (round-trip) -/

theorem split_json_fit {data jsonPayload rest2 : List Nat}
    (hch : ChunkHeader.from_reader data =
      .ok ({ length := jsonPayload.length, ty := .Json }, jsonPayload ++ rest2)) :
    split_binary_gltf data =
      Except.map (fun bin => (jsonPayload, bin)) (readBinChunk rest2) := by
  rcases h2 : readBinChunk rest2 with e | bb <;>
    simp [split_binary_gltf, hch, List.take_left, List.drop_left, h2,
      Except.map]

theorem readBinChunk_fit {data payload : List Nat} (hne : data ≠ [])
    (hch : ChunkHeader.from_reader data =
      .ok ({ length := payload.length, ty := .Bin }, payload)) :
    readBinChunk data = .ok (some payload) := by
  simp [readBinChunk, hne, hch]

/-- C1: for every valid triple (header with magic `b"glTF"`, version 2 and
consistent total length; json payload; optional bin payload) encoded per the
§6 byte layout, `Glb::from_slice` on the encoded bytes succeeds and returns
a `Glb` whose header fields equal the encoded header, whose json field is
byte-for-byte the json payload, and whose bin field is `some` of the
byte-for-byte bin payload when a BIN chunk was encoded and `none` when the
encoding ends after the JSON chunk. -/
theorem c1_round_trip (json : List Nat) (bin : Option (List Nat))
    (h : glbTotalLength json bin < U32_MOD) :
    Glb.from_slice (encodeGlb json bin) =
      .ok { header := { magic := glTF_MAGIC, version := 2,
                        length := glbTotalLength json bin },
            json := json, bin := bin } := by
  cases bin with
  | none =>
    simp only [glbTotalLength, binChunkBytes, List.length_nil,
      Nat.add_zero] at h ⊢
    simp only [encodeGlb, glbTotalLength, binChunkBytes, List.length_nil,
      Nat.add_zero, List.append_nil]
    unfold U32_MOD at h
    have hlenA : (glTF_MAGIC ++ (u32le 2 ++ (u32le (20 + json.length) ++
        (u32le json.length ++ (JSON_TAG ++ json))))).length =
        20 + json.length := by
      simp [glTF_MAGIC, JSON_TAG, u32le]
      omega
    have h12 : 12 ≤ (glTF_MAGIC ++ (u32le 2 ++ (u32le (20 + json.length) ++
        (u32le json.length ++ (JSON_TAG ++ json))))).length := by
      rw [hlenA]; omega
    have hm : (glTF_MAGIC ++ (u32le 2 ++ (u32le (20 + json.length) ++
        (u32le json.length ++ (JSON_TAG ++ json))))).take 4 = glTF_MAGIC :=
      List.take_left' (by rfl)
    have hd4 : (glTF_MAGIC ++ (u32le 2 ++ (u32le (20 + json.length) ++
        (u32le json.length ++ (JSON_TAG ++ json))))).drop 4 =
        u32le 2 ++ (u32le (20 + json.length) ++
          (u32le json.length ++ (JSON_TAG ++ json))) :=
      List.drop_left' (by rfl)
    have hv : ((glTF_MAGIC ++ (u32le 2 ++ (u32le (20 + json.length) ++
        (u32le json.length ++ (JSON_TAG ++ json))))).drop 4).take 4 =
        u32le 2 := by
      rw [hd4]; exact List.take_left' (u32le_length 2)
    have hd8 : (glTF_MAGIC ++ (u32le 2 ++ (u32le (20 + json.length) ++
        (u32le json.length ++ (JSON_TAG ++ json))))).drop 8 =
        u32le (20 + json.length) ++
          (u32le json.length ++ (JSON_TAG ++ json)) := by
      have hdd : (glTF_MAGIC ++ (u32le 2 ++ (u32le (20 + json.length) ++
          (u32le json.length ++ (JSON_TAG ++ json))))).drop 8 =
          ((glTF_MAGIC ++ (u32le 2 ++ (u32le (20 + json.length) ++
            (u32le json.length ++ (JSON_TAG ++ json))))).drop 4).drop 4 := by
        simp [List.drop_drop]
      rw [hdd, hd4]
      exact List.drop_left' (u32le_length 2)
    have hl : ((glTF_MAGIC ++ (u32le 2 ++ (u32le (20 + json.length) ++
        (u32le json.length ++ (JSON_TAG ++ json))))).drop 8).take 4 =
        u32le (20 + json.length) := by
      rw [hd8]; exact List.take_left' (u32le_length _)
    have hd12 : (glTF_MAGIC ++ (u32le 2 ++ (u32le (20 + json.length) ++
        (u32le json.length ++ (JSON_TAG ++ json))))).drop 12 =
        u32le json.length ++ (JSON_TAG ++ json) := by
      have hdd : (glTF_MAGIC ++ (u32le 2 ++ (u32le (20 + json.length) ++
          (u32le json.length ++ (JSON_TAG ++ json))))).drop 12 =
          ((glTF_MAGIC ++ (u32le 2 ++ (u32le (20 + json.length) ++
            (u32le json.length ++ (JSON_TAG ++ json))))).drop 8).drop 4 := by
        simp [List.drop_drop]
      rw [hdd, hd8]
      exact List.drop_left' (u32le_length _)
    have hdec2 : u8_arr_to_u32 (u32le 2) = 2 := by
      rw [u32le_decode]; unfold U32_MOD; omega
    have hdecT : u8_arr_to_u32 (u32le (20 + json.length)) =
        20 + json.length := by
      rw [u32le_decode]; unfold U32_MOD; omega
    have hcl : contentsLength (20 + json.length) = 8 + json.length := by
      unfold contentsLength USIZE_MOD; omega
    have hrl : (u32le json.length ++ (JSON_TAG ++ json)).length =
        8 + json.length := by
      simp [JSON_TAG, u32le]; omega
    have hjt : ((u32le json.length ++ (JSON_TAG ++ json)).drop 4).take 4 =
        JSON_TAG := by
      rw [List.drop_left' (u32le_length _)]
      exact List.take_left' (by rfl)
    have hjl : (u32le json.length ++ (JSON_TAG ++ json)).take 4 =
        u32le json.length := List.take_left' (u32le_length _)
    have hjd8 : (u32le json.length ++ (JSON_TAG ++ json)).drop 8 = json := by
      have hdd : (u32le json.length ++ (JSON_TAG ++ json)).drop 8 =
          ((u32le json.length ++ (JSON_TAG ++ json)).drop 4).drop 4 := by
        simp [List.drop_drop]
      rw [hdd, List.drop_left' (u32le_length _)]
      exact List.drop_left' (by rfl)
    have hdecJ : u8_arr_to_u32 (u32le json.length) = json.length := by
      rw [u32le_decode]; unfold U32_MOD; omega
    have hch : ChunkHeader.from_reader
        (u32le json.length ++ (JSON_TAG ++ json)) =
        .ok ({ length := json.length, ty := .Json }, json ++ []) := by
      rw [chunk_from_reader_json (by rw [hrl]; omega) hjt, hjl, hdecJ, hjd8]
      simp
    have hsplit : split_binary_gltf
        (u32le json.length ++ (JSON_TAG ++ json)) = .ok (json, none) := by
      rw [split_json_fit hch]
      rfl
    simp [Glb.from_slice, header_from_reader_ok h12 hm, hv, hl, hd12,
      hdec2, hdecT, hcl, hrl, hsplit]
  | some b =>
    simp only [glbTotalLength, binChunkBytes] at h ⊢
    simp only [encodeGlb, glbTotalLength, binChunkBytes]
    unfold U32_MOD at h
    have hblen : (u32le b.length ++ (BIN_TAG ++ b)).length = 8 + b.length := by
      simp [BIN_TAG, u32le]; omega
    rw [List.append_assoc (u32le b.length) BIN_TAG b] at h ⊢
    rw [hblen] at h ⊢
    have hlenA : (glTF_MAGIC ++ (u32le 2 ++
        (u32le (20 + json.length + (8 + b.length)) ++ (u32le json.length ++
          (JSON_TAG ++ (json ++ (u32le b.length ++
            (BIN_TAG ++ b)))))))).length =
        28 + json.length + b.length := by
      simp [glTF_MAGIC, JSON_TAG, BIN_TAG, u32le]
      omega
    have h12 : 12 ≤ (glTF_MAGIC ++ (u32le 2 ++
        (u32le (20 + json.length + (8 + b.length)) ++ (u32le json.length ++
          (JSON_TAG ++ (json ++ (u32le b.length ++
            (BIN_TAG ++ b)))))))).length := by
      rw [hlenA]; omega
    have hm : (glTF_MAGIC ++ (u32le 2 ++
        (u32le (20 + json.length + (8 + b.length)) ++ (u32le json.length ++
          (JSON_TAG ++ (json ++ (u32le b.length ++
            (BIN_TAG ++ b)))))))).take 4 =
        glTF_MAGIC := List.take_left' (by rfl)
    have hd4 : (glTF_MAGIC ++ (u32le 2 ++
        (u32le (20 + json.length + (8 + b.length)) ++ (u32le json.length ++
          (JSON_TAG ++ (json ++ (u32le b.length ++
            (BIN_TAG ++ b)))))))).drop 4 =
        u32le 2 ++ (u32le (20 + json.length + (8 + b.length)) ++
          (u32le json.length ++ (JSON_TAG ++
            (json ++ (u32le b.length ++ (BIN_TAG ++ b)))))) :=
      List.drop_left' (by rfl)
    have hv : ((glTF_MAGIC ++ (u32le 2 ++
        (u32le (20 + json.length + (8 + b.length)) ++ (u32le json.length ++
          (JSON_TAG ++ (json ++ (u32le b.length ++
            (BIN_TAG ++ b)))))))).drop 4).take 4 =
        u32le 2 := by
      rw [hd4]; exact List.take_left' (u32le_length 2)
    have hd8 : (glTF_MAGIC ++ (u32le 2 ++
        (u32le (20 + json.length + (8 + b.length)) ++ (u32le json.length ++
          (JSON_TAG ++ (json ++ (u32le b.length ++
            (BIN_TAG ++ b)))))))).drop 8 =
        u32le (20 + json.length + (8 + b.length)) ++ (u32le json.length ++
          (JSON_TAG ++ (json ++ (u32le b.length ++ (BIN_TAG ++ b))))) := by
      have hdd : (glTF_MAGIC ++ (u32le 2 ++
          (u32le (20 + json.length + (8 + b.length)) ++ (u32le json.length ++
            (JSON_TAG ++ (json ++ (u32le b.length ++
              (BIN_TAG ++ b)))))))).drop 8 =
          ((glTF_MAGIC ++ (u32le 2 ++
            (u32le (20 + json.length + (8 + b.length)) ++
              (u32le json.length ++ (JSON_TAG ++ (json ++ (u32le b.length ++
                (BIN_TAG ++ b)))))))).drop 4).drop 4 := by
        simp [List.drop_drop]
      rw [hdd, hd4]
      exact List.drop_left' (u32le_length 2)
    have hl : ((glTF_MAGIC ++ (u32le 2 ++
        (u32le (20 + json.length + (8 + b.length)) ++ (u32le json.length ++
          (JSON_TAG ++ (json ++ (u32le b.length ++
            (BIN_TAG ++ b)))))))).drop 8).take 4 =
        u32le (20 + json.length + (8 + b.length)) := by
      rw [hd8]; exact List.take_left' (u32le_length _)
    have hd12 : (glTF_MAGIC ++ (u32le 2 ++
        (u32le (20 + json.length + (8 + b.length)) ++ (u32le json.length ++
          (JSON_TAG ++ (json ++ (u32le b.length ++
            (BIN_TAG ++ b)))))))).drop 12 =
        u32le json.length ++ (JSON_TAG ++
          (json ++ (u32le b.length ++ (BIN_TAG ++ b)))) := by
      have hdd : (glTF_MAGIC ++ (u32le 2 ++
          (u32le (20 + json.length + (8 + b.length)) ++ (u32le json.length ++
            (JSON_TAG ++ (json ++ (u32le b.length ++
              (BIN_TAG ++ b)))))))).drop 12 =
          ((glTF_MAGIC ++ (u32le 2 ++
            (u32le (20 + json.length + (8 + b.length)) ++
              (u32le json.length ++ (JSON_TAG ++ (json ++ (u32le b.length ++
                (BIN_TAG ++ b)))))))).drop 8).drop 4 := by
        simp [List.drop_drop]
      rw [hdd, hd8]
      exact List.drop_left' (u32le_length _)
    have hdec2 : u8_arr_to_u32 (u32le 2) = 2 := by
      rw [u32le_decode]; unfold U32_MOD; omega
    have hdecT : u8_arr_to_u32 (u32le (20 + json.length + (8 + b.length))) =
        20 + json.length + (8 + b.length) := by
      rw [u32le_decode]; unfold U32_MOD; omega
    have hcl : contentsLength (20 + json.length + (8 + b.length)) =
        8 + json.length + (8 + b.length) := by
      unfold contentsLength USIZE_MOD; omega
    have hrl : (u32le json.length ++ (JSON_TAG ++
        (json ++ (u32le b.length ++ (BIN_TAG ++ b))))).length =
        8 + json.length + (8 + b.length) := by
      simp [JSON_TAG, BIN_TAG, u32le]; omega
    have hjt : ((u32le json.length ++ (JSON_TAG ++
        (json ++ (u32le b.length ++ (BIN_TAG ++ b))))).drop 4).take 4 =
        JSON_TAG := by
      rw [List.drop_left' (u32le_length _)]
      exact List.take_left' (by rfl)
    have hjl : (u32le json.length ++ (JSON_TAG ++
        (json ++ (u32le b.length ++ (BIN_TAG ++ b))))).take 4 =
        u32le json.length := List.take_left' (u32le_length _)
    have hjd8 : (u32le json.length ++ (JSON_TAG ++
        (json ++ (u32le b.length ++ (BIN_TAG ++ b))))).drop 8 =
        json ++ (u32le b.length ++ (BIN_TAG ++ b)) := by
      have hdd : (u32le json.length ++ (JSON_TAG ++
          (json ++ (u32le b.length ++ (BIN_TAG ++ b))))).drop 8 =
          ((u32le json.length ++ (JSON_TAG ++
            (json ++ (u32le b.length ++ (BIN_TAG ++ b))))).drop 4).drop 4 := by
        simp [List.drop_drop]
      rw [hdd, List.drop_left' (u32le_length _)]
      exact List.drop_left' (by rfl)
    have hdecJ : u8_arr_to_u32 (u32le json.length) = json.length := by
      rw [u32le_decode]; unfold U32_MOD; omega
    have hdecB : u8_arr_to_u32 (u32le b.length) = b.length := by
      rw [u32le_decode]; unfold U32_MOD; omega
    have hbne : u32le b.length ++ (BIN_TAG ++ b) ≠ [] := by
      simp [u32le]
    have hb8 : 8 ≤ (u32le b.length ++ (BIN_TAG ++ b)).length := by
      rw [hblen]; omega
    have hbt : ((u32le b.length ++ (BIN_TAG ++ b)).drop 4).take 4 =
        BIN_TAG := by
      rw [List.drop_left' (u32le_length _)]
      exact List.take_left' (by rfl)
    have hbl : (u32le b.length ++ (BIN_TAG ++ b)).take 4 = u32le b.length :=
      List.take_left' (u32le_length _)
    have hbd8 : (u32le b.length ++ (BIN_TAG ++ b)).drop 8 = b := by
      have hdd : (u32le b.length ++ (BIN_TAG ++ b)).drop 8 =
          ((u32le b.length ++ (BIN_TAG ++ b)).drop 4).drop 4 := by
        simp [List.drop_drop]
      rw [hdd, List.drop_left' (u32le_length _)]
      exact List.drop_left' (by rfl)
    have hchb : ChunkHeader.from_reader (u32le b.length ++ (BIN_TAG ++ b)) =
        .ok ({ length := b.length, ty := .Bin }, b) := by
      rw [chunk_from_reader_bin hb8 hbt, hbl, hdecB, hbd8]
    have hbin : readBinChunk (u32le b.length ++ (BIN_TAG ++ b)) =
        .ok (some b) := readBinChunk_fit hbne hchb
    have hchj : ChunkHeader.from_reader (u32le json.length ++ (JSON_TAG ++
        (json ++ (u32le b.length ++ (BIN_TAG ++ b))))) =
        .ok ({ length := json.length, ty := .Json },
          json ++ (u32le b.length ++ (BIN_TAG ++ b))) := by
      rw [chunk_from_reader_json (by rw [hrl]; omega) hjt, hjl, hdecJ, hjd8]
    have hsplit : split_binary_gltf (u32le json.length ++ (JSON_TAG ++
        (json ++ (u32le b.length ++ (BIN_TAG ++ b))))) =
        .ok (json, some b) := by
      rw [split_json_fit hchj, hbin]
      rfl
    simp [Glb.from_slice, header_from_reader_ok h12 hm, hv, hl, hd12,
      hdec2, hdecT, hcl, hrl, hsplit]

theorem c1_round_trip_witness :
    glbTotalLength [1, 2, 3] (some [4, 5]) < U32_MOD ∧
      Glb.from_slice (encodeGlb [1, 2, 3] (some [4, 5])) =
        .ok { header := { magic := glTF_MAGIC, version := 2,
                          length := glbTotalLength [1, 2, 3] (some [4, 5]) },
              json := [1, 2, 3], bin := some [4, 5] } :=
  ⟨by decide, c1_round_trip [1, 2, 3] (some [4, 5]) (by decide)⟩

end Gltf
